import Mathlib

/-!
# Verification of the permission-report service (`src/index.ts`)

Shallow embedding of the TypeScript source.  The Node filesystem API
(`fs.promises.stat`, `fs.promises.access`) is modelled as an abstract
environment `FileSystem` whose probes return `Except FsError _`, mirroring
promise rejection with a JavaScript error object carrying `code` and
`message`.  `checkPathPermissions`, the `/demo` handler and the
`Promise.all` fan-in are translated from the source.
-/

/-- A JavaScript error as rejected by the Node `fs.promises` API:
an error `code` (such as `"ENOENT"` or `"EACCES"`) and a `message`. -/
structure FsError where
  code : String
  message : String
deriving DecidableEq, Repr

/-- The slice of `fs.Stats` that the program inspects: `stats.isDirectory()`. -/
structure Stats where
  isDirectory : Bool
deriving DecidableEq, Repr

/-- `fs.constants.R_OK` and `fs.constants.W_OK`, the two access modes probed. -/
inductive AccessMode
  | R_OK
  | W_OK
deriving DecidableEq, Repr

/-- The filesystem environment: `stat` models `fs.promises.stat` (resolving
with metadata or rejecting with an error), `access` models
`fs.promises.access` for a given mode (resolving with unit or rejecting). -/
structure FileSystem where
  stat : String → Except FsError Stats
  access : String → AccessMode → Except FsError Unit

/-- The `type` field of `PermissionResult`: `'File' | 'Folder' | 'Unknown'`. -/
inductive PathType
  | File
  | Folder
  | Unknown
deriving DecidableEq, Repr

/-- The `PermissionResult` interface from `src/index.ts`; the optional
`error` field becomes `Option String`. -/
structure PermissionResult where
  path : String
  type : PathType
  «exists» : Bool
  canRead : Bool
  canWrite : Bool
  error : Option String := none
deriving DecidableEq, Repr

/-- Translation of `checkPathPermissions` from `src/index.ts`.  The result
record starts with the same defaults as the source; a successful `stat` sets
`exists`/`type` and runs the two independent access probes, each `try/catch`
around a probe becoming a `match` on its `Except` outcome; a failed `stat`
records either the ENOENT message or the generic message built from the
underlying error's `message`. -/
def checkPathPermissions (fs : FileSystem) (targetPath : String) : PermissionResult :=
  let result : PermissionResult :=
    { path := targetPath, type := PathType.Unknown, «exists» := false,
      canRead := false, canWrite := false, error := none }
  match fs.stat targetPath with
  | Except.ok stats =>
      let canRead :=
        match fs.access targetPath AccessMode.R_OK with
        | Except.ok _ => true
        | Except.error _ => false
      let canWrite :=
        match fs.access targetPath AccessMode.W_OK with
        | Except.ok _ => true
        | Except.error _ => false
      { result with
        «exists» := true,
        type := if stats.isDirectory then PathType.Folder else PathType.File,
        canRead := canRead,
        canWrite := canWrite }
  | Except.error e =>
      if e.code = "ENOENT" then
        { result with error := some "Path does not exist." }
      else
        { result with error := some ("An unexpected error occurred: " ++ e.message) }

/-- The body of a `/demo` response: either the success report (status 200)
or the error envelope `{error, details}` from the catch branch (status 500). -/
inductive DemoBody
  | report (results : List PermissionResult)
  | errorEnvelope (error : String) (details : String)
deriving DecidableEq, Repr

/-- An HTTP response as far as the claims observe it: the status code passed
to `res.status(...)` and the JSON body passed to `.json(...)`. -/
structure HttpResponse where
  status : Nat
  body : DemoBody
deriving DecidableEq, Repr

/-- `pathsToProcess.map(p => checkPathPermissions(p))` resolved through
`Promise.all`: one result per path, in input order (the aggregation of the
`/demo` handler). -/
def runReport (fs : FileSystem) (paths : List String) : List PermissionResult :=
  paths.map (checkPathPermissions fs)

/-- The `try/catch` of the `/demo` handler around the aggregation outcome:
a resolved `Promise.all` is answered with status 200 and the report, a
rejected one with status 500 and the
`{error: 'An internal server error occurred.', details: err.message}`
envelope. -/
def demoResponseOf (outcome : Except FsError (List PermissionResult)) : HttpResponse :=
  match outcome with
  | Except.ok results => { status := 200, body := DemoBody.report results }
  | Except.error err =>
      { status := 500,
        body := DemoBody.errorEnvelope "An internal server error occurred." err.message }

/-- The `/demo` handler for a given path list: `checkPathPermissions` is
total, so `Promise.all` over its results always resolves, and the handler
reaches the 200 branch with the full report. -/
def demoHandler (fs : FileSystem) (paths : List String) : HttpResponse :=
  demoResponseOf (Except.ok (runReport fs paths))

/-! ## Completion-order model of `Promise.all`

`Promise.all` starts all checks and stores each settled value at the index
of its promise in the input array; the order in which the individual
promises settle does not affect the output array.  We model a settling
schedule as a list `order` of input indices (the order in which the checks
complete) and rebuild the output array by index, as `Promise.all` does. -/

/-- The stream of settled checks under schedule `order`: the check of index
`i` completes when `i` occurs in `order`, carrying its input position and
its `PermissionResult` (indices outside the path list settle nothing). -/
def completionResults (fs : FileSystem) (paths : List String) (order : List Nat) :
    List (Nat × PermissionResult) :=
  order.filterMap fun i => (paths[i]?).map fun p => (i, checkPathPermissions fs p)

/-- `Promise.all`'s fan-in: slot `i` of the output array receives the
settled value whose index is `i`, independent of when it completed. -/
def settleAll (n : Nat) (completions : List (Nat × PermissionResult)) :
    List (Option PermissionResult) :=
  (List.range n).map fun i => (completions.find? fun c => c.fst == i).map Prod.snd

/-! ## Concrete filesystem environments

Fixtures used to evaluate the theorems on closed inputs; they realise the
scenarios named in the source's fixed path list (a missing file, a root
directory, a readable-but-not-writable file, a stat denied by permissions). -/

/-- Every probe rejects with ENOENT, as for
`./a-fake-file-that-does-not-exist.txt`. -/
def enoentFS : FileSystem where
  stat := fun _ => Except.error ⟨"ENOENT", "no such file or directory"⟩
  access := fun _ _ => Except.error ⟨"ENOENT", "no such file or directory"⟩

/-- Every path stats as a readable, writable directory, as for `./`. -/
def rootDirFS : FileSystem where
  stat := fun _ => Except.ok ⟨true⟩
  access := fun _ _ => Except.ok ()

/-- Every path stats as a plain file that is readable but not writable. -/
def readOnlyFS : FileSystem where
  stat := fun _ => Except.ok ⟨false⟩
  access := fun _ m =>
    match m with
    | AccessMode.R_OK => Except.ok ()
    | AccessMode.W_OK => Except.error ⟨"EACCES", "permission denied"⟩

/-- Every `stat` itself is denied (EACCES while stating), as for
`/root/test.txt` probed by an unprivileged user. -/
def eaccesStatFS : FileSystem where
  stat := fun _ => Except.error ⟨"EACCES", "permission denied"⟩
  access := fun _ _ => Except.error ⟨"EACCES", "permission denied"⟩

/-! ## Helper lemmas -/

/-- The `path` field of the result always echoes the probed path. -/
theorem checkPathPermissions_path (fs : FileSystem) (p : String) :
    (checkPathPermissions fs p).path = p := by
  unfold checkPathPermissions
  cases h : fs.stat p with
  | ok stats => simp
  | error e => by_cases hc : e.code = "ENOENT" <;> simp [hc]

/-- C1: `checkPathPermissions` is a total function into `PermissionResult`
(its Lean type is not `Except`): every filesystem behaviour, including every
failing probe, yields a result value, and a failing existence probe is
encoded in the `error` field (the ENOENT message or the generic message
around the underlying error text) rather than escaping to the caller. -/
theorem checkPathPermissions_never_throws (fs : FileSystem) (p : String) :
    ((∃ stats, fs.stat p = Except.ok stats ∧ (checkPathPermissions fs p).error = none)
      ∨ (∃ e, fs.stat p = Except.error e ∧
          (checkPathPermissions fs p).error =
            some (if e.code = "ENOENT" then "Path does not exist."
                  else "An unexpected error occurred: " ++ e.message)))
    ∧ (checkPathPermissions fs p).path = p := by
  refine ⟨?_, checkPathPermissions_path fs p⟩
  cases h : fs.stat p with
  | ok stats =>
      exact Or.inl ⟨stats, rfl, by simp [checkPathPermissions, h]⟩
  | error e =>
      refine Or.inr ⟨e, rfl, ?_⟩
      by_cases hc : e.code = "ENOENT" <;> simp [checkPathPermissions, h, hc]

/-- C2: when the existence probe rejects with `code = "ENOENT"`, the result
is exactly `exists=false`, `type=Unknown`, `canRead=false`, `canWrite=false`,
`error="Path does not exist."`, and the `/demo` handler still answers the
request with status 200, not with an HTTP error. -/
theorem checkPathPermissions_enoent (fs : FileSystem) (p : String) (e : FsError)
    (hstat : fs.stat p = Except.error e) (hcode : e.code = "ENOENT") :
    checkPathPermissions fs p =
      { path := p, type := PathType.Unknown, «exists» := false,
        canRead := false, canWrite := false, error := some "Path does not exist." }
    ∧ ∀ paths : List String, (demoHandler fs paths).status = 200 := by
  constructor
  · simp [checkPathPermissions, hstat, hcode]
  · intro paths
    rfl

/-- Witness for C2: on the all-ENOENT filesystem, the missing-path result
and the 200 status, at the concrete path of the source's demo list. -/
theorem checkPathPermissions_enoent_witness :
    checkPathPermissions enoentFS "/a-fake-file-that-does-not-exist.txt" =
      { path := "/a-fake-file-that-does-not-exist.txt", type := PathType.Unknown,
        «exists» := false, canRead := false, canWrite := false,
        error := some "Path does not exist." }
    ∧ (demoHandler enoentFS ["/a-fake-file-that-does-not-exist.txt"]).status = 200 := by
  have h := checkPathPermissions_enoent enoentFS "/a-fake-file-that-does-not-exist.txt"
    ⟨"ENOENT", "no such file or directory"⟩ rfl rfl
  exact ⟨h.1, h.2 ["/a-fake-file-that-does-not-exist.txt"]⟩

/-- C3: the data-model invariant holds for every returned result: a
non-existing result has both access flags false and type Unknown; an
existing result has type File or Folder and no `error`. -/
theorem checkPathPermissions_invariant (fs : FileSystem) (p : String) :
    ((checkPathPermissions fs p).«exists» = false →
      (checkPathPermissions fs p).canRead = false
      ∧ (checkPathPermissions fs p).canWrite = false
      ∧ (checkPathPermissions fs p).type = PathType.Unknown)
    ∧ ((checkPathPermissions fs p).«exists» = true →
      ((checkPathPermissions fs p).type = PathType.File
        ∨ (checkPathPermissions fs p).type = PathType.Folder)
      ∧ (checkPathPermissions fs p).error = none) := by
  cases h : fs.stat p with
  | ok stats =>
      by_cases hd : stats.isDirectory <;> simp [checkPathPermissions, h, hd]
  | error e =>
      by_cases hc : e.code = "ENOENT" <;> simp [checkPathPermissions, h, hc]

/-- C4: when the existence probe succeeds, the result has `exists=true`,
`type=Folder` exactly when the metadata reports a directory and `type=File`
otherwise, and no `error`. -/
theorem checkPathPermissions_exists_type (fs : FileSystem) (p : String) (stats : Stats)
    (hstat : fs.stat p = Except.ok stats) :
    (checkPathPermissions fs p).«exists» = true
    ∧ ((checkPathPermissions fs p).type = PathType.Folder ↔ stats.isDirectory = true)
    ∧ (stats.isDirectory = false → (checkPathPermissions fs p).type = PathType.File)
    ∧ (checkPathPermissions fs p).error = none := by
  by_cases hd : stats.isDirectory <;> simp [checkPathPermissions, hstat, hd]

/-- Witness for C4: on the all-directories filesystem at the source's first
demo path, the existing-directory branch. -/
theorem checkPathPermissions_exists_type_witness :
    (checkPathPermissions rootDirFS "/").«exists» = true
    ∧ ((checkPathPermissions rootDirFS "/").type = PathType.Folder
        ↔ (Stats.mk true).isDirectory = true)
    ∧ ((Stats.mk true).isDirectory = false →
        (checkPathPermissions rootDirFS "/").type = PathType.File)
    ∧ (checkPathPermissions rootDirFS "/").error = none :=
  checkPathPermissions_exists_type rootDirFS "/" ⟨true⟩ rfl

/-- C5: on an existing path, `canRead` equals exactly the outcome of the
read probe and `canWrite` exactly the outcome of the write probe — each
probe's failure is recorded only in its own flag, the other flag is
computed from its own probe, and `error` stays absent; in particular the
mixed result `exists=true, canRead=true, canWrite=false` is realised (by
the read-only filesystem). -/
theorem checkPathPermissions_probes_independent (fs : FileSystem) (p : String)
    (stats : Stats) (hstat : fs.stat p = Except.ok stats) :
    (checkPathPermissions fs p).canRead = (fs.access p AccessMode.R_OK).isOk
    ∧ (checkPathPermissions fs p).canWrite = (fs.access p AccessMode.W_OK).isOk
    ∧ (checkPathPermissions fs p).error = none
    ∧ (∃ gs : FileSystem, ∃ q : String,
        (checkPathPermissions gs q).«exists» = true
        ∧ (checkPathPermissions gs q).canRead = true
        ∧ (checkPathPermissions gs q).canWrite = false) := by
  refine ⟨?_, ?_, ?_, ⟨readOnlyFS, "/root/test.txt", by decide⟩⟩ <;>
    cases hr : fs.access p AccessMode.R_OK <;>
      cases hw : fs.access p AccessMode.W_OK <;>
        simp [checkPathPermissions, hstat, hr, hw, Except.isOk, Except.toBool]

/-- Witness for C5: the read-only filesystem shows the probes recorded
independently, with the mixed readable/not-writable outcome. -/
theorem checkPathPermissions_probes_independent_witness :
    (checkPathPermissions readOnlyFS "/root/test.txt").canRead =
      (readOnlyFS.access "/root/test.txt" AccessMode.R_OK).isOk
    ∧ (checkPathPermissions readOnlyFS "/root/test.txt").canWrite =
      (readOnlyFS.access "/root/test.txt" AccessMode.W_OK).isOk
    ∧ (checkPathPermissions readOnlyFS "/root/test.txt").error = none
    ∧ (∃ gs : FileSystem, ∃ q : String,
        (checkPathPermissions gs q).«exists» = true
        ∧ (checkPathPermissions gs q).canRead = true
        ∧ (checkPathPermissions gs q).canWrite = false) :=
  checkPathPermissions_probes_independent readOnlyFS "/root/test.txt" ⟨false⟩ rfl

/-- C7: whenever all per-path checks complete — which they always do, since
`checkPathPermissions` is total — the `/demo` handler answers 200 with the
full report, for every filesystem behaviour (including one on which every
path fails every probe); the 500 `{error, details}` envelope is produced
only on the catch branch, i.e. only from a rejected aggregation outcome. -/
theorem demoHandler_status (fs : FileSystem) (paths : List String) :
    demoHandler fs paths =
      { status := 200, body := DemoBody.report (runReport fs paths) }
    ∧ (demoHandler enoentFS paths).status = 200
    ∧ ∀ e : FsError,
        demoResponseOf (Except.error e) =
          { status := 500,
            body := DemoBody.errorEnvelope "An internal server error occurred." e.message } :=
  ⟨rfl, rfl, fun _ => rfl⟩

/-- C8: when the existence probe rejects with a code other than `"ENOENT"`,
the result keeps all boolean defaults and type Unknown, and `error` is the
descriptive message that embeds the underlying error's `message` text. -/
theorem checkPathPermissions_other_stat_failure (fs : FileSystem) (p : String)
    (e : FsError) (hstat : fs.stat p = Except.error e) (hcode : e.code ≠ "ENOENT") :
    checkPathPermissions fs p =
      { path := p, type := PathType.Unknown, «exists» := false,
        canRead := false, canWrite := false,
        error := some ("An unexpected error occurred: " ++ e.message) } := by
  simp [checkPathPermissions, hstat, hcode]

/-- Witness for C8: the filesystem whose `stat` is denied with EACCES
produces the generic message carrying the underlying "permission denied". -/
theorem checkPathPermissions_other_stat_failure_witness :
    checkPathPermissions eaccesStatFS "/root/test.txt" =
      { path := "/root/test.txt", type := PathType.Unknown, «exists» := false,
        canRead := false, canWrite := false,
        error := some ("An unexpected error occurred: " ++ "permission denied") } :=
  checkPathPermissions_other_stat_failure eaccesStatFS "/root/test.txt"
    ⟨"EACCES", "permission denied"⟩ rfl (by decide)

/-- C10: in every result, the `error` field is present exactly when
`exists` is false: the existence probe failing always sets `error`, and its
succeeding never does. -/
theorem checkPathPermissions_error_iff_not_exists (fs : FileSystem) (p : String) :
    (checkPathPermissions fs p).error.isSome = true
      ↔ (checkPathPermissions fs p).«exists» = false := by
  cases h : fs.stat p with
  | ok stats =>
      by_cases hd : stats.isDirectory <;> simp [checkPathPermissions, h, hd]
  | error e =>
      by_cases hc : e.code = "ENOENT" <;> simp [checkPathPermissions, h, hc]

/-- Looking up index `i` among the settled checks finds the check of the
`i`-th path, whichever position the schedule gave it. -/
theorem completionResults_find (fs : FileSystem) (paths : List String)
    (order : List Nat) :
    ∀ (i : Nat) (p : String), i ∈ order → paths[i]? = some p →
      (∀ j ∈ order, j < paths.length) →
      List.find? (fun c => c.fst == i) (completionResults fs paths order) =
        some (i, checkPathPermissions fs p) := by
  induction order with
  | nil =>
      intro i p hi _ _
      exact absurd hi (List.not_mem_nil i)
  | cons j t ih =>
      intro i p hi hp hall
      have hj : j < paths.length := hall j (List.mem_cons_self j t)
      have hjq : paths[j]? = some paths[j] := List.getElem?_eq_getElem hj
      rcases eq_or_ne j i with hij | hij
      · subst hij
        have hpj : paths[j] = p := by
          rw [hjq] at hp
          exact Option.some.inj hp
        rw [completionResults,
          List.filterMap_cons_some (b := (j, checkPathPermissions fs paths[j]))
            (by rw [hjq]; rfl),
          List.find?_cons_of_pos _ (by simp), hpj]
      · have hi' : i ∈ t := by
          rcases List.mem_cons.mp hi with h | h
          · exact absurd h.symm hij
          · exact h
        rw [completionResults,
          List.filterMap_cons_some (b := (j, checkPathPermissions fs paths[j]))
            (by rw [hjq]; rfl),
          List.find?_cons_of_neg _ (by simp [hij])]
        exact ih i p hi' hp fun k hk => hall k (List.mem_cons_of_mem j hk)

/-- C6: for every path list and every settling schedule that completes each
check exactly once (a permutation of the input indices), the fan-in yields
the full report — one settled result in every slot, no partial report — and
it equals, slot by slot, the input-order report; the report has exactly one
result per input path, and the `i`-th result's `path` field is the `i`-th
input path. -/
theorem promiseAll_order_independent (fs : FileSystem) (paths : List String)
    (order : List Nat) (hperm : order.Perm (List.range paths.length)) :
    settleAll paths.length (completionResults fs paths order) =
      (runReport fs paths).map some
    ∧ (runReport fs paths).length = paths.length
    ∧ ∀ i : Nat, ((runReport fs paths)[i]?).map PermissionResult.path = paths[i]? := by
  have hall : ∀ j ∈ order, j < paths.length := fun j hj =>
    List.mem_range.mp (hperm.mem_iff.mp hj)
  refine ⟨?_, by simp [runReport], ?_⟩
  · apply List.ext_getElem?
    intro n
    by_cases hn : n < paths.length
    · have hmem : n ∈ order := hperm.mem_iff.mpr (List.mem_range.mpr hn)
      have hq : paths[n]? = some paths[n] := List.getElem?_eq_getElem hn
      have hfind := completionResults_find fs paths order n paths[n] hmem hq hall
      simp [settleAll, runReport, List.getElem?_range hn, hq, hfind]
    · have hrange : (List.range paths.length)[n]? = none :=
        List.getElem?_eq_none (by simpa using Nat.le_of_not_lt hn)
      have hpaths : paths[n]? = none := List.getElem?_eq_none (Nat.le_of_not_lt hn)
      simp [settleAll, runReport, hrange, hpaths]
  · intro i
    by_cases hi : i < paths.length
    · have hq : paths[i]? = some paths[i] := List.getElem?_eq_getElem hi
      simp [runReport, hq, checkPathPermissions_path]
    · simp [runReport, List.getElem?_eq_none (Nat.le_of_not_lt hi)]

/-- Witness for C6: two paths settled in reversed order still produce the
in-order two-slot report. -/
theorem promiseAll_order_independent_witness :
    settleAll 2 (completionResults readOnlyFS ["/a", "/b"] [1, 0]) =
      (runReport readOnlyFS ["/a", "/b"]).map some
    ∧ (runReport readOnlyFS ["/a", "/b"]).length = 2
    ∧ ((runReport readOnlyFS ["/a", "/b"])[0]?).map PermissionResult.path =
        (["/a", "/b"] : List String)[0]? := by
  have h := promiseAll_order_independent readOnlyFS ["/a", "/b"] [1, 0] (by decide)
  exact ⟨h.1, h.2.1, h.2.2 0⟩
